import Mathlib

/-
Verification of the tg-trnsm-bot Telegram/Transmission bot
(src/tg_trnsm_bot/app.py, utils.py; src/transmission_telegram_bot/config.py).

Shallow embedding conventions:
 * Python exceptions that escape a function are modelled by `Option`
   (`none` = the call raised) or `Except` where the exception text matters.
 * Python `dict[int, V]` is modelled by an association list `List (Int × V)`
   with last-write-wins update; only lookup / key-set semantics are relied
   on, never entry order.
 * Python floats (torrent progress percentages) are abstracted to rationals;
   `round(x, 1)` is modelled by rounding the rational to one decimal with
   ties to even, as Python's `round` does on exactly representable values.
 * Python string primitives (`split`, `strip`, `int()`) are modelled over
   the character list of the string so that they compute by structural
   recursion.
 * Network / Telegram side effects are recorded as values: lists of emitted
   messages, a list of scheduled jobs, flags for attempted edits.
-/

/-! ## Callback token decoding (`TorrentCallback.parse`, app.py:40-49) -/

/-- Python `data.split("_")`: split on every underscore, keeping empty
pieces (`"a__b" → ["a", "", "b"]`, `"" → [""]`). -/
def pySplitUnd (s : String) : List String :=
  (s.data.splitOn (Char.ofNat 95)).map (fun cs => String.mk cs)

/-- Python `int(s)` on a decimal string: optional surrounding whitespace,
optional single sign, then at least one digit.  `none` models `ValueError`.
(Python also allows underscores between digits, but every string this model
is applied to is one piece of a `split("_")` and so contains none.) -/
def pyInt (s : String) : Option Int :=
  let t := ((s.data.dropWhile Char.isWhitespace).reverse.dropWhile
      Char.isWhitespace).reverse
  match t with
  | [] => none
  | c :: rest =>
    let signed : Int × List Char :=
      if c = Char.ofNat 45 then (-1, rest)
      else if c = Char.ofNat 43 then (1, rest)
      else (1, c :: rest)
    if !signed.2.isEmpty && signed.2.all Char.isDigit then
      some (signed.1 * signed.2.foldl (fun acc ch => 10 * acc + Int.ofNat (ch.toNat - 48)) 0)
    else none

/-- `TorrentCallback` (app.py:40-43).  `TorrentAction` is
`Literal["view", "start", "stop", "verify", "reload"]`, which at runtime is a
plain string, and `typing.cast` performs no check; the field is therefore a
`String` here. -/
structure TorrentCallback where
  torrent_id : Int
  action : String
deriving DecidableEq

/-- `TorrentCallback.parse` (app.py:45-49): `parts = data.split("_")`;
`action = parts[2] if len(parts) == 3 else "view"`; `int(parts[1])`.
`none` models an uncaught `IndexError` (no `parts[1]`) or `ValueError`
(`int` fails); when `len(parts) == 3` the `parts[2]` access always succeeds,
so the order of the two computations is immaterial. -/
def TorrentCallback.parse (data : String) : Option TorrentCallback :=
  match (pySplitUnd data)[1]? with
  | none => none
  | some s =>
    match pyInt s with
    | none => none
    | some n =>
      some { torrent_id := n,
             action := if (pySplitUnd data).length = 3 then (pySplitUnd data)[2]! else "view" }

/-- The torrent mutation `torrent_menu_inline` (app.py:151-159) performs for a
decoded callback: only the `start` / `stop` / `verify` branches touch the
daemon; every other action string, `"view"` included, performs none. -/
def dispatchedCalls (cb : TorrentCallback) : List String :=
  if cb.action = "start" then ["start_torrent " ++ toString cb.torrent_id]
  else if cb.action = "stop" then ["stop_torrent " ++ toString cb.torrent_id]
  else if cb.action = "verify" then ["verify_torrent " ++ toString cb.torrent_id]
  else []

theorem parse_action {data : String} {cb : TorrentCallback}
    (h : TorrentCallback.parse data = some cb) :
    cb.action = if (pySplitUnd data).length = 3 then (pySplitUnd data)[2]! else "view" := by
  unfold TorrentCallback.parse at h
  split at h
  · exact absurd h (by simp)
  · split at h
    · exact absurd h (by simp)
    · cases h
      rfl

/-- Claim C1, counterexample.  `TorrentCallback.parse` is not total and does
not normalise unknown action keywords: a token whose second field is not an
integer raises `ValueError` (`"torrent_abc_start"`), a token with no second
field raises `IndexError` (`"torrent"`), and a three-field token with an
unknown keyword keeps that keyword instead of decoding to `"view"`
(`"torrent_7_smite"`).  This refutes "a malformed token ... decodes to the
safe default action view rather than failing". -/
theorem claim_C1_counterexample :
    TorrentCallback.parse "torrent_abc_start" = none
    ∧ TorrentCallback.parse "torrent" = none
    ∧ TorrentCallback.parse "torrent_7_smite" = some ⟨7, "smite"⟩
    ∧ TorrentCallback.parse "torrent_7_smite" ≠ some ⟨7, "view"⟩ := by
  refine ⟨by decide, by decide, by decide, by decide⟩

/-- Claim C1, amended.  `parse` succeeds only when the token has a second
field that parses as an integer (otherwise it raises `IndexError` or
`ValueError`); on success a field count other than three yields the default
action `"view"`, while a count of exactly three yields the third field
verbatim — unknown keywords included.  An unknown keyword, though preserved
by `parse`, matches none of the dispatcher's mutation branches and so acts
as the `"view"` no-op. -/
theorem claim_C1_amended :
    (∀ data cb, TorrentCallback.parse data = some cb →
        (pySplitUnd data).length ≠ 3 → cb.action = "view")
    ∧ (∀ data cb, TorrentCallback.parse data = some cb →
        (pySplitUnd data).length = 3 → cb.action = (pySplitUnd data)[2]!)
    ∧ (∀ cb : TorrentCallback, cb.action ∉ (["start", "stop", "verify"] : List String) →
        dispatchedCalls cb = []) := by
  refine ⟨?_, ?_, ?_⟩
  · intro data cb h hlen
    rw [parse_action h, if_neg hlen]
  · intro data cb h hlen
    rw [parse_action h, if_pos hlen]
  · intro cb hmem
    unfold dispatchedCalls
    rw [if_neg, if_neg, if_neg]
    · intro h; exact hmem (by rw [h]; simp)
    · intro h; exact hmem (by rw [h]; simp)
    · intro h; exact hmem (by rw [h]; simp)

/-- Witness for `claim_C1_amended` at concrete tokens. -/
theorem claim_C1_amended_witness :
    (TorrentCallback.parse "torrent_5_a_b" = some ⟨5, "view"⟩
      ∧ (⟨5, "view"⟩ : TorrentCallback).action = "view")
    ∧ (TorrentCallback.parse "torrent_9_reload" = some ⟨9, "reload"⟩
      ∧ (⟨9, "reload"⟩ : TorrentCallback).action = (pySplitUnd "torrent_9_reload")[2]!)
    ∧ dispatchedCalls ⟨5, "smite"⟩ = [] :=
  ⟨⟨by decide, claim_C1_amended.1 "torrent_5_a_b" ⟨5, "view"⟩ (by decide) (by decide)⟩,
   ⟨by decide, claim_C1_amended.2.1 "torrent_9_reload" ⟨9, "reload"⟩ (by decide) (by decide)⟩,
   claim_C1_amended.2.2 ⟨5, "smite"⟩ (by decide)⟩

/-! ## Association-list model of Python dicts -/

/-- `m[k]` / `m.get(k)` on a `dict[int, α]`. -/
def alLookup {α : Type} (m : List (Int × α)) (k : Int) : Option α :=
  (m.find? (fun p => p.1 == k)).map Prod.snd

/-- `m[k] = v` on a `dict[int, α]` (last write wins; entry order is never
relied upon, so the updated entry may be moved to the front). -/
def alInsert {α : Type} (m : List (Int × α)) (k : Int) (v : α) : List (Int × α) :=
  (k, v) :: m.filter (fun p => p.1 != k)

theorem alLookup_alInsert_self {α : Type} (m : List (Int × α)) (k : Int) (v : α) :
    alLookup (alInsert m k v) k = some v := by
  simp [alLookup, alInsert, List.find?]

theorem find?_filter_ne {α : Type} (m : List (Int × α)) {k k' : Int} (h : k' ≠ k) :
    (m.filter (fun p => p.1 != k)).find? (fun p => p.1 == k')
      = m.find? (fun p => p.1 == k') := by
  induction m with
  | nil => rfl
  | cons p t ih =>
    rcases eq_or_ne p.1 k with hp | hp
    · have h1 : (p.1 != k) = false := by simp [hp]
      have h2 : (p.1 == k') = false := by simp [hp, Ne.symm h]
      simp [List.filter_cons, h1, List.find?_cons, h2, ih]
    · have h1 : (p.1 != k) = true := by simp [hp]
      by_cases hp' : p.1 = k'
      · have h2 : (p.1 == k') = true := by simp [hp']
        simp [List.filter_cons, h1, List.find?_cons, h2]
      · have h2 : (p.1 == k') = false := by simp [hp']
        simp [List.filter_cons, h1, List.find?_cons, h2, ih]

theorem alLookup_alInsert_ne {α : Type} (m : List (Int × α)) {k k' : Int} (v : α)
    (h : k' ≠ k) : alLookup (alInsert m k v) k' = alLookup m k' := by
  unfold alLookup alInsert
  rw [List.find?_cons_of_neg _ (by simpa using Ne.symm h), find?_filter_ne m h]

theorem alLookup_ne_none_iff {α : Type} (m : List (Int × α)) (k : Int) :
    alLookup m k ≠ none ↔ k ∈ m.map Prod.fst := by
  induction m with
  | nil => simp [alLookup]
  | cons p t ih =>
    by_cases hp : p.1 = k
    · simp [alLookup, List.find?, hp]
    · simp only [alLookup, List.find?] at ih ⊢
      rw [show (p.1 == k) = false by simpa using hp]
      simp only [List.map_cons, List.mem_cons]
      rw [ih]
      constructor
      · exact Or.inr
      · rintro (h | h)
        · exact absurd h.symm hp
        · exact h

/-! ## Completion monitor (app.py:33-35, 382-437) -/

/-- One element of `menus.trans_client.get_torrents()` as the monitor reads
it: `torrent.id`, `torrent.name`, `torrent.status`, `torrent.progress`. -/
structure TorrentInfo where
  id : Int
  name : String
  status : String
  progress : ℚ
deriving DecidableEq

/-- One value of the `monitored_torrents` dict (app.py:407-410, 427-430):
`{"status": ..., "progress": ...}` with the progress already rounded. -/
structure MonEntry where
  status : String
  progress : ℚ
deriving DecidableEq

/-- The monitor's process-wide state (app.py:33-35): `monitored_torrents`,
`torrent_owners`, `_monitor_initialized`. -/
structure MonState where
  monitored : List (Int × MonEntry)
  owners : List (Int × Int)
  initialized : Bool
deriving DecidableEq

/-- Banker's rounding of a rational to the nearest integer (ties to even),
matching Python's `round` on an exactly representable argument. -/
def roundHalfEven (q : ℚ) : ℤ :=
  let f := ⌊q⌋
  if q - (f : ℚ) < 1 / 2 then f
  else if (1 : ℚ) / 2 < q - (f : ℚ) then f + 1
  else if f % 2 = 0 then f else f + 1

/-- Python `round(x, 1)` (app.py:409, 418). -/
def round1 (q : ℚ) : ℚ := (roundHalfEven (10 * q) : ℚ) / 10

/-- One `send_completion_notification(context, torrent.name, owner_id)` call
(app.py:424-425), tagged with the torrent id: `(id, name, owner)`.  The send
itself is a no-op when the owner is `none` (app.py:383-384). -/
abbrev Notif := Int × String × Option Int

/-- The completion test of app.py:422-423: current (rounded) progress is
exactly `100.0`, status is `seeding` or `stopped`, and the previously
recorded progress was absent or below `100.0`. -/
def completionFires (prev : Option MonEntry) (t : TorrentInfo) : Bool :=
  (decide (round1 t.progress = 100) &&
    (t.status == "seeding" || t.status == "stopped")) &&
  (match prev with
   | none => true
   | some e => decide (e.progress < 100))

/-- The per-torrent loop of `monitor_torrent_completion` (app.py:415-430):
look up the previous entry, emit a notification when `completionFires`, then
unconditionally overwrite the recorded entry. -/
def processTorrents (owners : List (Int × Int)) :
    List (Int × MonEntry) → List TorrentInfo → List (Int × MonEntry) × List Notif
  | mon, [] => (mon, [])
  | mon, t :: rest =>
    let firstNotifs : List Notif :=
      if completionFires (alLookup mon t.id) t
      then [(t.id, t.name, alLookup owners t.id)] else []
    let r := processTorrents owners (alInsert mon t.id ⟨t.status, round1 t.progress⟩) rest
    (r.1, firstNotifs ++ r.2)

/-- The stale-key cleanup of app.py:432-437: delete every `monitored_torrents`
key not reported this tick, and `pop` exactly those keys from
`torrent_owners`. -/
def monitorCleanup (mon : List (Int × MonEntry)) (owners : List (Int × Int))
    (currentIds : List Int) : List (Int × MonEntry) × List (Int × Int) :=
  let removed := (mon.map Prod.fst).filter (fun k => !currentIds.contains k)
  (mon.filter (fun p => currentIds.contains p.1),
   owners.filter (fun p => !removed.contains p.1))

/-- One tick of `monitor_torrent_completion` (app.py:396-437).  `poll = none`
models `get_torrents()` raising (log and return, app.py:399-403); the first
successful tick is the baseline pass (app.py:405-413); later ticks process
every reported torrent and then garbage-collect stale keys. -/
def monitorStep (st : MonState) (poll : Option (List TorrentInfo)) :
    MonState × List Notif :=
  match poll with
  | none => (st, [])
  | some all =>
    if st.initialized then
      let r := processTorrents st.owners st.monitored all
      let c := monitorCleanup r.1 st.owners (all.map (·.id))
      ({ monitored := c.1, owners := c.2, initialized := true }, r.2)
    else
      ({ monitored :=
           all.foldl (fun m t => alInsert m t.id ⟨t.status, round1 t.progress⟩) st.monitored,
         owners := st.owners, initialized := true }, [])

/-- Claim C6.  When fetching the torrent list fails, the tick mutates no
state and emits no notification: the whole poll is skipped atomically and
the loop survives to retry (returning normally from the tick). -/
theorem claim_C6_poll_failure_skips_tick (st : MonState) :
    monitorStep st none = (st, []) := rfl

theorem alLookup_foldl_not_mem {α σ : Type} (key : σ → Int) (val : σ → α)
    (l : List σ) (m : List (Int × α)) {k : Int} (hk : k ∉ l.map key) :
    alLookup (l.foldl (fun m t => alInsert m (key t) (val t)) m) k = alLookup m k := by
  induction l generalizing m with
  | nil => rfl
  | cons t rest ih =>
    simp only [List.map_cons, List.mem_cons, not_or] at hk
    simp only [List.foldl_cons]
    rw [ih _ hk.2, alLookup_alInsert_ne _ _ hk.1]

theorem alLookup_foldl_mem {α σ : Type} (key : σ → Int) (val : σ → α)
    (l : List σ) (m : List (Int × α)) {t : σ} (ht : t ∈ l)
    (hnd : (l.map key).Nodup) :
    alLookup (l.foldl (fun m t => alInsert m (key t) (val t)) m) (key t)
      = some (val t) := by
  induction l generalizing m with
  | nil => exact absurd ht (List.not_mem_nil t)
  | cons a rest ih =>
    simp only [List.map_cons, List.nodup_cons] at hnd
    simp only [List.foldl_cons]
    rcases List.mem_cons.mp ht with rfl | hmem
    · rw [alLookup_foldl_not_mem key val rest _ hnd.1, alLookup_alInsert_self]
    · exact ih _ hmem hnd.2

theorem alLookup_foldl_pres {α σ : Type} (key : σ → Int) (val : σ → α)
    (l : List σ) (m : List (Int × α)) {k : Int}
    (h : alLookup m k ≠ none) :
    alLookup (l.foldl (fun m t => alInsert m (key t) (val t)) m) k ≠ none := by
  induction l generalizing m with
  | nil => exact h
  | cons a rest ih =>
    simp only [List.foldl_cons]
    apply ih
    rcases eq_or_ne k (key a) with rfl | hne
    · rw [alLookup_alInsert_self]
      simp
    · rw [alLookup_alInsert_ne _ _ hne]
      exact h

theorem alLookup_filter_eq_none {α : Type} (m : List (Int × α)) (q : Int → Bool)
    {k : Int} (hq : q k = false) :
    alLookup (m.filter (fun p => q p.1)) k = none := by
  induction m with
  | nil => rfl
  | cons p t ih =>
    by_cases hp : q p.1 = true
    · have hpk : (p.1 == k) = false := by
        rcases eq_or_ne p.1 k with rfl | h
        · rw [hp] at hq
          cases hq
        · simpa using h
      simpa [alLookup, List.filter_cons, hp, List.find?_cons, hpk] using ih
    · simp only [Bool.not_eq_true] at hp
      simpa [alLookup, List.filter_cons, hp] using ih

theorem processTorrents_fst (ow : List (Int × Int)) (mon : List (Int × MonEntry))
    (l : List TorrentInfo) :
    (processTorrents ow mon l).1
      = l.foldl (fun m t => alInsert m t.id ⟨t.status, round1 t.progress⟩) mon := by
  induction l generalizing mon with
  | nil => rfl
  | cons t rest ih => simp only [processTorrents, List.foldl_cons, ih]

theorem processTorrents_notif_mem (ow : List (Int × Int)) :
    ∀ (l : List TorrentInfo) (mon : List (Int × MonEntry)) {i : Int} {nm : String}
      {o : Option Int}, (i, nm, o) ∈ (processTorrents ow mon l).2 → i ∈ l.map (·.id)
  | [], _, _, _, _, h => absurd h (List.not_mem_nil _)
  | a :: rest, mon, i, nm, o, h => by
    simp only [processTorrents] at h
    rcases List.mem_append.mp h with h1 | h2
    · split at h1
      · have h3 : i = a.id := (Prod.ext_iff.mp (List.mem_singleton.mp h1)).1
        simp only [List.map_cons, List.mem_cons]
        exact Or.inl h3
      · cases h1
    · simp only [List.map_cons, List.mem_cons]
      exact Or.inr (processTorrents_notif_mem ow rest _ h2)

theorem processTorrents_notif_iff (ow : List (Int × Int)) (t : TorrentInfo) :
    ∀ (l : List TorrentInfo) (mon : List (Int × MonEntry)),
      (l.map (·.id)).Nodup → t ∈ l →
      ((t.id, t.name, alLookup ow t.id) ∈ (processTorrents ow mon l).2
        ↔ completionFires (alLookup mon t.id) t = true)
  | [], _, _, ht => absurd ht (List.not_mem_nil t)
  | a :: rest, mon, hnd, ht => by
    simp only [List.map_cons, List.nodup_cons] at hnd
    simp only [processTorrents, List.mem_append]
    rcases List.mem_cons.mp ht with rfl | hmem
    · constructor
      · rintro (h1 | h2)
        · split at h1
          · next hf => exact hf
          · cases h1
        · exact absurd (processTorrents_notif_mem ow rest _ h2) hnd.1
      · intro hf
        rw [if_pos hf]
        exact Or.inl (List.mem_singleton.mpr rfl)
    · have hne : t.id ≠ a.id := by
        intro he
        exact hnd.1 (he ▸ List.mem_map.mpr ⟨t, hmem, rfl⟩)
      have ih := processTorrents_notif_iff ow t rest
        (alInsert mon a.id ⟨a.status, round1 a.progress⟩) hnd.2 hmem
      rw [alLookup_alInsert_ne _ _ hne] at ih
      constructor
      · rintro (h1 | h2)
        · exfalso
          split at h1
          · exact hne (Prod.ext_iff.mp (List.mem_singleton.mp h1)).1
          · cases h1
        · exact ih.mp h2
      · intro hf
        exact Or.inr (ih.mpr hf)

theorem completionFires_iff (prev : Option MonEntry) (t : TorrentInfo) :
    completionFires prev t = true
      ↔ (round1 t.progress = 100 ∧ (t.status = "seeding" ∨ t.status = "stopped")
         ∧ (prev = none ∨ ∃ e, prev = some e ∧ e.progress < 100)) := by
  cases prev with
  | none => simp [completionFires]
  | some e => simp [completionFires]; tauto

theorem monitorStep_baseline (st : MonState) (l : List TorrentInfo)
    (hinit : st.initialized = false) :
    monitorStep st (some l) =
      (⟨l.foldl (fun m t => alInsert m t.id ⟨t.status, round1 t.progress⟩) st.monitored,
        st.owners, true⟩, []) := by
  simp [monitorStep, hinit]

theorem monitorStep_run (st : MonState) (l : List TorrentInfo)
    (hinit : st.initialized = true) :
    monitorStep st (some l) =
      (⟨(monitorCleanup (processTorrents st.owners st.monitored l).1 st.owners
            (l.map (·.id))).1,
        (monitorCleanup (processTorrents st.owners st.monitored l).1 st.owners
            (l.map (·.id))).2,
        true⟩,
       (processTorrents st.owners st.monitored l).2) := by
  simp [monitorStep, hinit]

/-- Claim C3.  The very first successful poll is a baseline-only pass: zero
notifications are emitted — regardless of the reported progresses and
statuses — the monitor is marked initialized, and the monitored-state map
records each reported torrent's status and one-decimal-rounded progress. -/
theorem claim_C3_baseline_pass (st : MonState) (l : List TorrentInfo)
    (hinit : st.initialized = false) (hnd : (l.map (·.id)).Nodup) :
    (monitorStep st (some l)).2 = []
    ∧ (monitorStep st (some l)).1.initialized = true
    ∧ ∀ t ∈ l, alLookup (monitorStep st (some l)).1.monitored t.id
        = some ⟨t.status, round1 t.progress⟩ := by
  rw [monitorStep_baseline st l hinit]
  refine ⟨rfl, rfl, ?_⟩
  intro t ht
  exact alLookup_foldl_mem (·.id) (fun t => ⟨t.status, round1 t.progress⟩)
    l st.monitored ht hnd

/-- Witness for `claim_C3_baseline_pass`: a single torrent already reporting
progress 100 and status seeding produces no notification on the first poll. -/
theorem claim_C3_baseline_pass_witness :
    (monitorStep ⟨[], [], false⟩ (some [⟨1, "a", "seeding", 100⟩])).2 = []
    ∧ (monitorStep ⟨[], [], false⟩ (some [⟨1, "a", "seeding", 100⟩])).1.initialized = true
    ∧ alLookup (monitorStep ⟨[], [], false⟩
        (some [⟨1, "a", "seeding", 100⟩])).1.monitored 1
        = some ⟨"seeding", round1 100⟩ :=
  have h := claim_C3_baseline_pass ⟨[], [], false⟩ [⟨1, "a", "seeding", 100⟩]
    rfl (by simp)
  ⟨h.1, h.2.1, h.2.2 ⟨1, "a", "seeding", 100⟩ (List.mem_singleton.mpr rfl)⟩

theorem intContains_iff (l : List Int) (k : Int) : l.contains k = true ↔ k ∈ l := by
  simp

theorem round1_40 : round1 40 = 40 := by
  unfold round1
  rw [show (10 : ℚ) * 40 = 400 by norm_num,
    show roundHalfEven 400 = 400 by unfold roundHalfEven; norm_num]
  norm_num

theorem round1_100 : round1 100 = 100 := by
  unfold round1
  rw [show (10 : ℚ) * 100 = 1000 by norm_num,
    show roundHalfEven 1000 = 1000 by unfold roundHalfEven; norm_num]
  norm_num

/-- Claim C2.  On every post-baseline poll, a completion notification for a
reported torrent fires iff its current progress rounds to `100.0` at one
decimal, its status is `seeding` or `stopped`, and its previously recorded
progress was below `100.0` or absent; the notification goes to the recorded
owner (the `torrent_owners` lookup; the send is skipped when no owner is
recorded).  In particular, for the poll sequence
`[{id 1: 40, downloading}, {id 1: 100, seeding}]` starting uninitialized,
exactly one notification fires, on the second poll, to the recorded owner
of id 1. -/
theorem claim_C2_completion_notification :
    (∀ (st : MonState) (l : List TorrentInfo) (t : TorrentInfo),
        st.initialized = true → (l.map (·.id)).Nodup → t ∈ l →
        ((t.id, t.name, alLookup st.owners t.id) ∈ (monitorStep st (some l)).2
          ↔ (round1 t.progress = 100
             ∧ (t.status = "seeding" ∨ t.status = "stopped")
             ∧ (alLookup st.monitored t.id = none
                ∨ ∃ e, alLookup st.monitored t.id = some e ∧ e.progress < 100))))
    ∧ (monitorStep ⟨[], [(1, 42)], false⟩ (some [⟨1, "tor", "downloading", 40⟩])).2 = []
    ∧ (monitorStep (monitorStep ⟨[], [(1, 42)], false⟩
          (some [⟨1, "tor", "downloading", 40⟩])).1
        (some [⟨1, "tor", "seeding", 100⟩])).2 = [(1, "tor", some 42)] := by
  refine ⟨?_, ?_, ?_⟩
  · intro st l t hinit hnd ht
    simp only [monitorStep_run st l hinit]
    rw [processTorrents_notif_iff st.owners t l st.monitored hnd ht]
    exact completionFires_iff _ t
  · rw [monitorStep_baseline ⟨[], [(1, 42)], false⟩ _ rfl]
  · rw [monitorStep_baseline ⟨[], [(1, 42)], false⟩ _ rfl]
    show (monitorStep ⟨[(1, ⟨"downloading", round1 40⟩)], [(1, 42)], true⟩
        (some [⟨1, "tor", "seeding", 100⟩])).2 = [(1, "tor", some 42)]
    rw [monitorStep_run _ _ rfl]
    show (processTorrents [(1, 42)] [(1, ⟨"downloading", round1 40⟩)]
        [⟨1, "tor", "seeding", 100⟩]).2 = [(1, "tor", some 42)]
    have hfire : completionFires (some ⟨"downloading", round1 40⟩)
        ⟨1, "tor", "seeding", 100⟩ = true := by
      simp only [completionFires, round1_100, round1_40]
      norm_num
    simp only [processTorrents]
    rw [show alLookup [(1, (⟨"downloading", round1 40⟩ : MonEntry))] 1
        = some ⟨"downloading", round1 40⟩ from rfl, hfire]
    rfl

/-- Witness for the quantified part of `claim_C2_completion_notification`:
an already-initialized state whose recorded progress for id 1 is 40 and a
poll reporting id 1 at progress 100, seeding, with owner 42 recorded. -/
theorem claim_C2_completion_notification_witness :
    ((1 : Int), "tor", some (42 : Int)) ∈
      (monitorStep ⟨[(1, ⟨"downloading", 40⟩)], [(1, 42)], true⟩
        (some [⟨1, "tor", "seeding", 100⟩])).2 :=
  (claim_C2_completion_notification.1 ⟨[(1, ⟨"downloading", 40⟩)], [(1, 42)], true⟩
      [⟨1, "tor", "seeding", 100⟩] ⟨1, "tor", "seeding", 100⟩ rfl (by simp)
      (List.mem_singleton.mpr rfl)).mpr
    ⟨round1_100, Or.inl rfl, Or.inr ⟨⟨"downloading", 40⟩, rfl, by norm_num⟩⟩

/-- Claim C7, counterexample.  Ownership entries are garbage-collected only
for ids present in the monitored-state map (`removed_ids` is computed from
`monitored_torrents.keys()`, app.py:433-434): an owner recorded for a
torrent that vanished before it was ever monitored survives a post-baseline
tick even though the daemon reported no such id, refuting "every torrent id
present ... in the ownership map is an id reported by the daemon on that
tick". -/
theorem claim_C7_counterexample :
    (monitorStep ⟨[], [(5, 77)], true⟩ (some [])).1.owners = [(5, 77)]
    ∧ (5 : Int) ∉ ([] : List TorrentInfo).map (·.id) :=
  ⟨by decide, by decide⟩

/-- Claim C7, amended.  After every post-baseline tick: every id in the
monitored-state map was reported by the daemon on that tick; any id that was
previously monitored but is no longer reported loses both its
monitored-state entry and its ownership entry (so no further notification
can fire for it — notifications only ever name reported ids, third
conjunct).  Ownership entries for ids that never entered the
monitored-state map are, however, not collected (see the counterexample). -/
theorem claim_C7_amended (st : MonState) (l : List TorrentInfo)
    (hinit : st.initialized = true) :
    (∀ k v, (k, v) ∈ (monitorStep st (some l)).1.monitored → k ∈ l.map (·.id))
    ∧ (∀ k, alLookup st.monitored k ≠ none → k ∉ l.map (·.id) →
        alLookup (monitorStep st (some l)).1.monitored k = none
        ∧ alLookup (monitorStep st (some l)).1.owners k = none)
    ∧ (∀ (i : Int) (nm : String) (o : Option Int),
        (i, nm, o) ∈ (monitorStep st (some l)).2 → i ∈ l.map (·.id)) := by
  simp only [monitorStep_run st l hinit]
  refine ⟨?_, ?_, ?_⟩
  · intro k v hmem
    unfold monitorCleanup at hmem
    exact (intContains_iff _ k).mp (List.mem_filter.mp hmem).2
  · intro k hpres hnot
    have hcont : (l.map (·.id)).contains k = false :=
      Bool.eq_false_iff.mpr (fun hc => hnot ((intContains_iff _ k).mp hc))
    have hkeys : k ∈ (processTorrents st.owners st.monitored l).1.map Prod.fst := by
      rw [← alLookup_ne_none_iff, processTorrents_fst]
      exact alLookup_foldl_pres (·.id) (fun t => ⟨t.status, round1 t.progress⟩)
        l st.monitored hpres
    unfold monitorCleanup
    constructor
    · exact alLookup_filter_eq_none _ _ hcont
    · have hrem : k ∈ ((processTorrents st.owners st.monitored l).1.map
          Prod.fst).filter (fun x => !(l.map (·.id)).contains x) :=
        List.mem_filter.mpr ⟨hkeys, by rw [hcont]; rfl⟩
      have h0 : (!(((processTorrents st.owners st.monitored l).1.map
          Prod.fst).filter (fun x => !(l.map (·.id)).contains x)).contains k)
          = false := by
        rw [(intContains_iff _ k).mpr hrem]
        rfl
      exact alLookup_filter_eq_none st.owners
        (fun x => !(((processTorrents st.owners st.monitored l).1.map
          Prod.fst).filter (fun x => !(l.map (·.id)).contains x)).contains x) h0
  · intro i nm o h
    exact processTorrents_notif_mem st.owners l st.monitored h

/-- Witness for `claim_C7_amended`: a state monitoring id 3 (owner 9) and a
poll in which id 3 has disappeared; both entries for id 3 are gone after the
tick. -/
theorem claim_C7_amended_witness :
    alLookup (monitorStep ⟨[(3, ⟨"downloading", 50⟩)], [(3, 9)], true⟩
        (some [])).1.monitored 3 = none
    ∧ alLookup (monitorStep ⟨[(3, ⟨"downloading", 50⟩)], [(3, 9)], true⟩
        (some [])).1.owners 3 = none :=
  (claim_C7_amended ⟨[(3, ⟨"downloading", 50⟩)], [(3, 9)], true⟩ [] rfl).2.1 3
    (by decide) (by decide)

/-! ## Auto-refresh jobs (app.py:25-28, 52-97, 190-197, 309-330) -/

def AUTO_UPDATE_INTERVAL_SEC : Int := 1

def AUTO_UPDATE_DURATION_SEC : Int := 60

def AUTO_UPDATE_STATUSES : List String := ["downloading", "seeding", "checking"]

/-- `get_job_name` (app.py:52-53). -/
def get_job_name (chat_id message_id : Int) : String :=
  "torrent_update_" ++ toString chat_id ++ "_" ++ toString message_id

/-- A `JobQueue` entry created by `run_repeating`: its name and the `data`
payload `{chat_id, message_id, torrent_id, iteration}`. -/
structure Job where
  name : String
  chat_id : Int
  message_id : Int
  torrent_id : Int
  iteration : Int
deriving DecidableEq

def mkUpdateJob (chat msg tid : Int) : Job :=
  ⟨get_job_name chat msg, chat, msg, tid, 0⟩

/-- `cancel_torrent_update_job` (app.py:56-61): `schedule_removal()` on every
job whose name is the key's name. -/
def cancel_torrent_update_job (q : List Job) (chat msg : Int) : List Job :=
  q.filter (fun j => j.name != get_job_name chat msg)

/-- `JobQueue.run_repeating` (python-telegram-bot): appends a job; names are
not unique, so it never removes or replaces anything. -/
def run_repeating (q : List Job) (j : Job) : List Job := q ++ [j]

/-- The job-queue effect of `torrent_menu_inline` (app.py:174, 190-197):
cancel at the key, then create a job there iff the view warrants
auto-refresh. -/
def torrentMenuInlineJobs (q : List Job) (chat msg tid : Int)
    (shouldAutoUpdate : Bool) : List Job :=
  let q1 := cancel_torrent_update_job q chat msg
  if shouldAutoUpdate then run_repeating q1 (mkUpdateJob chat msg tid) else q1

/-- The job-queue effect of the `start` branch of `torrent_adding_actions`
(app.py:314-330): `run_repeating` with no preceding cancel. -/
def torrentAddingStartJobs (q : List Job) (chat msg tid : Int) : List Job :=
  run_repeating q (mkUpdateJob chat msg tid)

/-- The number of live jobs at a `(chat, message)` key. -/
def jobsAt (q : List Job) (chat msg : Int) : Nat :=
  (q.filter (fun j => j.name == get_job_name chat msg)).length

/-- Claim C4, counterexample.  The `start` branch of
`torrent_adding_actions` creates its refresh job without first cancelling:
applied to a queue already holding a job at key `(1, 2)`, it leaves two live
jobs at that key, refuting "every operation that creates a refresh job at a
key first cancels any existing job at that same key". -/
theorem claim_C4_counterexample :
    jobsAt (torrentAddingStartJobs [mkUpdateJob 1 2 7] 1 2 9) 1 2 = 2 := by
  decide

/-- Claim C4, amended.  The refresh-job creation in `torrent_menu_inline`
does cancel the key first, so it leaves exactly one job (or zero, when the
view does not warrant auto-refresh) at the key whatever the starting queue;
but the creation in `torrent_adding_actions`'s `start` branch appends
without cancelling, adding one to whatever number of jobs already live at
the key. -/
theorem claim_C4_amended (q : List Job) (chat msg tid : Int) (b : Bool) :
    jobsAt (torrentMenuInlineJobs q chat msg tid b) chat msg
      = (if b then 1 else 0)
    ∧ jobsAt (torrentAddingStartJobs q chat msg tid) chat msg
      = jobsAt q chat msg + 1 := by
  have hmk : ((mkUpdateJob chat msg tid).name == get_job_name chat msg) = true := by
    simp [mkUpdateJob]
  have hcancel : (List.filter (fun j => j.name == get_job_name chat msg)
      (cancel_torrent_update_job q chat msg)).length = 0 := by
    rw [List.length_eq_zero]
    apply List.filter_eq_nil_iff.mpr
    intro j hj
    have hne := (List.mem_filter.mp hj).2
    simp only [bne_iff_ne, ne_eq] at hne
    simp [hne]
  constructor
  · cases b with
    | false =>
      show jobsAt (cancel_torrent_update_job q chat msg) chat msg = 0
      exact hcancel
    | true =>
      show jobsAt (run_repeating (cancel_torrent_update_job q chat msg)
        (mkUpdateJob chat msg tid)) chat msg = 1
      unfold jobsAt run_repeating
      rw [List.filter_append, List.length_append, hcancel]
      simp [mkUpdateJob]
  · unfold jobsAt torrentAddingStartJobs run_repeating
    rw [List.filter_append, List.length_append]
    simp [mkUpdateJob]

/-! ## Auto-refresh tick (`update_torrent_status`, app.py:63-97) -/

theorem strContains_iff (l : List String) (k : String) :
    l.contains k = true ↔ k ∈ l := by
  simp

/-- The observable outcome of one `update_torrent_status` tick:
whether the job scheduled its own removal, whether a message edit was
attempted (app.py:87-95; `BadRequest` there is swallowed), and the
`auto_refresh_remaining` seconds passed to the renderer. -/
structure TickResult where
  scheduledRemoval : Bool
  editAttempted : Bool
  remaining : Option Int
deriving DecidableEq

/-- One tick of `update_torrent_status` (app.py:63-97).  `status = none`
models `menus.get_torrent_status` raising `KeyError` (torrent gone);
`iteration` is the counter stored in the job payload before the tick
(incremented first, app.py:73). -/
def update_torrent_status (iteration : Int) (status : Option String) : TickResult :=
  let elapsed := (iteration + 1) * AUTO_UPDATE_INTERVAL_SEC
  match status with
  | none => ⟨true, false, none⟩
  | some s =>
    let shouldStop := !AUTO_UPDATE_STATUSES.contains s
      || decide (elapsed ≥ AUTO_UPDATE_DURATION_SEC)
    ⟨shouldStop, true,
     if shouldStop then none else some (AUTO_UPDATE_DURATION_SEC - elapsed)⟩

/-- Claim C5.  Terminal conditions in priority order on every tick: a
vanished torrent (`KeyError`) cancels the job and attempts no edit,
whatever the elapsed time; otherwise the edit for the tick is always
attempted, and the job cancels itself (removal scheduled before the render,
taking effect only after this tick) iff the elapsed time has reached
`AUTO_UPDATE_DURATION_SEC` or the status has left the active set. -/
theorem claim_C5_tick_terminal_conditions (iteration : Int) :
    update_torrent_status iteration none = ⟨true, false, none⟩
    ∧ ∀ s, (update_torrent_status iteration (some s)).editAttempted = true
        ∧ ((update_torrent_status iteration (some s)).scheduledRemoval = true
            ↔ (s ∉ AUTO_UPDATE_STATUSES
               ∨ (iteration + 1) * AUTO_UPDATE_INTERVAL_SEC ≥ AUTO_UPDATE_DURATION_SEC)) := by
  refine ⟨rfl, fun s => ⟨rfl, ?_⟩⟩
  show (_ || _) = true ↔ _
  rw [Bool.or_eq_true, Bool.not_eq_true']
  constructor
  · rintro (h | h)
    · exact Or.inl (fun hs => by
        rw [(strContains_iff _ _).mpr hs] at h
        exact Bool.noConfusion h)
    · exact Or.inr (of_decide_eq_true h)
  · rintro (h | h)
    · refine Or.inl ?_
      cases hc : AUTO_UPDATE_STATUSES.contains s with
      | false => rfl
      | true => exact absurd ((strContains_iff _ _).mp hc) h
    · exact Or.inr (decide_eq_true h)

/-! ## Access-control guard (`utils.whitelist`, utils.py:80-93) -/

/-- Outcome of the `whitelist` wrapper: either the wrapped handler body ran
(with its result) or the update was dropped after logging. -/
inductive GuardOutcome (α : Type) where
  | denied
  | allowed (result : α)
deriving DecidableEq

/-- `utils.whitelist` (utils.py:80-93): drop when there is no
`effective_user` or its id is not in `config.WHITELIST`; otherwise run the
wrapped handler.  `handler uid` stands for `await func(update, context)`;
its result type is abstract so the guard is the same for every handler. -/
def whitelist {α : Type} (wlist : List Int) (handler : Int → α)
    (user : Option Int) : GuardOutcome α :=
  match user with
  | none => .denied
  | some uid => if uid ∈ wlist then .allowed (handler uid) else .denied

/-- The user-visible replies of a guarded interaction: a dropped update
produces none (the guard returns before any `reply_text`/`answer`). -/
def guardReplies (g : GuardOutcome (List String)) : List String :=
  match g with
  | .denied => []
  | .allowed msgs => msgs

/-- Claim C8.  An interaction from an identity outside the allow-list (or
with no identity at all) is rejected silently: the outcome is `denied`, no
user-visible reply is produced, and the wrapped handler body is never
invoked — the outcome is the same whatever handler is wrapped. -/
theorem claim_C8_whitelist_silent_drop (wlist : List Int)
    (handler : Int → List String) :
    (whitelist wlist handler none = GuardOutcome.denied
      ∧ guardReplies (whitelist wlist handler none) = [])
    ∧ ∀ uid, uid ∉ wlist →
        whitelist wlist handler (some uid) = GuardOutcome.denied
        ∧ guardReplies (whitelist wlist handler (some uid)) = []
        ∧ ∀ g : Int → List String,
            whitelist wlist handler (some uid) = whitelist wlist g (some uid) := by
  refine ⟨⟨rfl, rfl⟩, fun uid huid => ?_⟩
  have h : whitelist wlist handler (some uid) = GuardOutcome.denied := by
    show (if uid ∈ wlist then GuardOutcome.allowed (handler uid)
      else GuardOutcome.denied) = GuardOutcome.denied
    rw [if_neg huid]
  refine ⟨h, by rw [h]; rfl, fun g => ?_⟩
  rw [h]
  show GuardOutcome.denied
    = (if uid ∈ wlist then GuardOutcome.allowed (g uid) else GuardOutcome.denied)
  rw [if_neg huid]

/-- Witness for `claim_C8_whitelist_silent_drop`: user 99 against allow-list
`[10, 20]`. -/
theorem claim_C8_whitelist_silent_drop_witness :
    whitelist [10, 20] (fun _ => ["menu"]) (some 99) = GuardOutcome.denied
    ∧ guardReplies (whitelist [10, 20] (fun _ => ["menu"]) (some 99)) = [] :=
  have h := (claim_C8_whitelist_silent_drop [10, 20] (fun _ => ["menu"])).2 99
    (by decide)
  ⟨h.1, h.2.1⟩

/-! ## Magnet-link handler (`magnet_url_handler`, app.py:276-289) -/

/-- The failure reply `f"Failed to add torrent: {e}"` (app.py:285). -/
def failReply (e : String) : String := "Failed to add torrent: " ++ e

/-- The per-link loop of `magnet_url_handler` (app.py:281-289) over the
magnet URIs found in the message.  `addResult` models
`menus.add_torrent_with_magnet` (`ok`: the new torrent's id; `error`: the
`TransmissionError` text) and `menu` models the `menus.add_menu` rendering
of the confirmation reply — both live in the `menus` module, outside this
repository's sources, so they are parameters here.  Returns the final
`torrent_owners` map and the replies sent, in order. -/
def magnet_url_handler (addResult : String → Except String Int)
    (menu : Int → String) (uid : Int) :
    List String → List (Int × Int) → List (Int × Int) × List String
  | [], owners => (owners, [])
  | u :: rest, owners =>
    match addResult u with
    | .error e =>
      let r := magnet_url_handler addResult menu uid rest owners
      (r.1, failReply e :: r.2)
    | .ok tid =>
      let r := magnet_url_handler addResult menu uid rest (alInsert owners tid uid)
      (r.1, menu tid :: r.2)

/-- Claim C9.  When the daemon rejects one magnet URI in a message, that URI
contributes exactly one user-visible reply — the failure message — and no
ownership entry (the `torrent_owners` map reaching the remaining links is
exactly the one produced by the links before it), and the remaining links
are still processed: the run over `pre ++ [u] ++ post` is the run over
`pre`, then the single failure reply for `u`, then the run over `post`. -/
theorem claim_C9_daemon_reject_one_reply (addResult : String → Except String Int)
    (menu : Int → String) (uid : Int) (pre post : List String) (u e : String)
    (owners : List (Int × Int)) (hfail : addResult u = .error e) :
    magnet_url_handler addResult menu uid (pre ++ u :: post) owners =
      ((magnet_url_handler addResult menu uid post
          (magnet_url_handler addResult menu uid pre owners).1).1,
       (magnet_url_handler addResult menu uid pre owners).2
         ++ failReply e :: (magnet_url_handler addResult menu uid post
              (magnet_url_handler addResult menu uid pre owners).1).2) := by
  induction pre generalizing owners with
  | nil =>
    simp only [List.nil_append, magnet_url_handler, hfail]
  | cons p rest ih =>
    simp only [List.cons_append, magnet_url_handler]
    cases hp : addResult p with
    | error e2 =>
      rw [show rest.append (u :: post) = rest ++ u :: post from rfl]
      simp only [ih, List.cons_append]
    | ok tid =>
      rw [show rest.append (u :: post) = rest ++ u :: post from rfl]
      simp only [ih, List.cons_append]

/-- Witness for `claim_C9_daemon_reject_one_reply`: three links of which the
middle one is rejected by the daemon. -/
theorem claim_C9_daemon_reject_one_reply_witness :
    magnet_url_handler
        (fun s => if s = "bad" then Except.error "boom" else Except.ok 1)
        (fun t => "menu " ++ toString t) 7 (["ok1"] ++ "bad" :: ["ok2"]) [] =
      ((magnet_url_handler
          (fun s => if s = "bad" then Except.error "boom" else Except.ok 1)
          (fun t => "menu " ++ toString t) 7 ["ok2"]
          (magnet_url_handler
            (fun s => if s = "bad" then Except.error "boom" else Except.ok 1)
            (fun t => "menu " ++ toString t) 7 ["ok1"] []).1).1,
       (magnet_url_handler
          (fun s => if s = "bad" then Except.error "boom" else Except.ok 1)
          (fun t => "menu " ++ toString t) 7 ["ok1"] []).2
         ++ failReply "boom" :: (magnet_url_handler
            (fun s => if s = "bad" then Except.error "boom" else Except.ok 1)
            (fun t => "menu " ++ toString t) 7 ["ok2"]
            (magnet_url_handler
              (fun s => if s = "bad" then Except.error "boom" else Except.ok 1)
              (fun t => "menu " ++ toString t) 7 ["ok1"] []).1).2) :=
  claim_C9_daemon_reject_one_reply
    (fun s => if s = "bad" then Except.error "boom" else Except.ok 1)
    (fun t => "menu " ++ toString t) 7 ["ok1"] ["ok2"] "bad" "boom" []
    (by simp)

/-! ## ETA formatter (`utils.formated_eta`, utils.py:52-68) -/

/-- What `formated_eta` reads from `torrent.eta`: the property raises
`ValueError` when the daemon reports no usable ETA (`err`), can be `None`
(`undef`), or is a `datetime.timedelta` read through its `days`/`seconds`
decomposition (a real timedelta has `0 ≤ seconds < 86400`; the theorems do
not need that bound). -/
inductive EtaValue where
  | err
  | undef
  | val (days : Nat) (seconds : Nat)
deriving DecidableEq

/-- `utils.formated_eta` (utils.py:52-68): `"Unavailable"` on `ValueError`
or `None`; otherwise `divmod(eta.seconds, 60)`, `divmod(minutes, 60)`, a
`"D days "` prefix iff `eta.days` is truthy, and the hour wording iff the
`hours` component is nonzero. -/
def formated_eta : EtaValue → String
  | .err => "Unavailable"
  | .undef => "Unavailable"
  | .val days secs =>
    let seconds := secs % 60
    let minutes := secs / 60
    let hours := minutes / 60
    let mins := minutes % 60
    (if days ≠ 0 then toString days ++ " days " else "")
      ++ (if hours ≠ 0 then toString hours ++ " h " ++ toString mins ++ " min"
          else toString mins ++ " min " ++ toString seconds ++ " sec")

/-- Modelled from the spec: ETA "formatted as \"D days H h M min\" when
≥ 1 hour remaining, else \"M min S sec\"; \"Unavailable\" when the daemon
cannot compute an ETA or reports an error", with days omitted when zero. -/
def etaSpecFormat : EtaValue → String
  | .err => "Unavailable"
  | .undef => "Unavailable"
  | .val days secs =>
    if days * 86400 + secs ≥ 3600 then
      (if days ≠ 0 then toString days ++ " days " else "")
        ++ (toString (secs / 3600) ++ " h " ++ toString (secs % 3600 / 60) ++ " min")
    else
      toString (secs / 60) ++ " min " ++ toString (secs % 60) ++ " sec"

/-- Claim C10, counterexample.  An ETA of 1 day 5 minutes is at least one
hour remaining, yet the code formats it as `"1 days 5 min 0 sec"` — the
branch is chosen on the hours *component* (here 0), not on the total — so
the claimed `"D days H h M min"` shape (`"1 days 0 h 5 min"`) is not
produced. -/
theorem claim_C10_counterexample :
    formated_eta (.val 1 300) = "1 days 5 min 0 sec"
    ∧ etaSpecFormat (.val 1 300) = "1 days 0 h 5 min"
    ∧ formated_eta (.val 1 300) ≠ etaSpecFormat (.val 1 300) :=
  ⟨by decide, by decide, by decide⟩

/-- Claim C10, amended.  `"Unavailable"` on a `ValueError` or a `None` ETA;
the spec's format holds whenever the days are zero or the leftover-hours
component is nonzero; but when at least one day remains and the leftover
hours are zero, the code emits `"D days M min S sec"` instead of the
claimed `"D days H h M min"`. -/
theorem claim_C10_amended :
    (formated_eta .err = "Unavailable" ∧ formated_eta .undef = "Unavailable")
    ∧ (∀ days secs : Nat, days = 0 ∨ secs / 3600 ≠ 0 →
        formated_eta (.val days secs) = etaSpecFormat (.val days secs))
    ∧ (∀ days secs : Nat, days ≠ 0 → secs / 3600 = 0 →
        formated_eta (.val days secs)
          = (toString days ++ " days ")
            ++ (toString (secs / 60) ++ " min " ++ toString (secs % 60) ++ " sec")) := by
  refine ⟨⟨rfl, rfl⟩, ?_, ?_⟩
  · intro days secs h
    simp only [formated_eta, etaSpecFormat]
    rw [show secs / 60 / 60 = secs / 3600 from by omega,
      show secs / 60 % 60 = secs % 3600 / 60 from by omega]
    rcases h with rfl | hs
    · by_cases hsge : secs / 3600 ≠ 0
      · rw [if_pos hsge, if_pos (by omega : 0 * 86400 + secs ≥ 3600)]
      · rw [if_neg hsge, if_neg (by omega : ¬ 0 * 86400 + secs ≥ 3600),
          show secs % 3600 / 60 = secs / 60 from by omega]
        simp
    · rw [if_pos hs, if_pos (by omega : days * 86400 + secs ≥ 3600)]
  · intro days secs hd h0
    simp only [formated_eta, etaSpecFormat]
    rw [show secs / 60 / 60 = secs / 3600 from by omega, h0]
    rw [if_neg (by simp : ¬ (0 : Nat) ≠ 0), if_pos hd,
      show secs / 60 % 60 = secs / 60 from by omega]

/-- Witness for `claim_C10_amended` at 90 minutes (hour branch) and at
1 day 5 minutes (the amended day case). -/
theorem claim_C10_amended_witness :
    formated_eta (.val 0 5400) = etaSpecFormat (.val 0 5400)
    ∧ formated_eta (.val 1 300)
      = (toString (1 : Nat) ++ " days ")
        ++ (toString (5 : Nat) ++ " min " ++ toString (0 : Nat) ++ " sec") :=
  ⟨claim_C10_amended.2.1 0 5400 (Or.inl rfl),
   claim_C10_amended.2.2 1 300 (by decide) (by decide)⟩
